import Mathlib

/-!
Verification of the `ruwren-macros` code generator (src/ruwren-macros/src/lib.rs).

The crate is a Rust procedural macro that, for a user-declared "logical"
struct, generates:
  * a field split into a class record (static fields) and an instance
    record (non-static fields), together with conversions between the
    logical type and the two halves (`generate_class`, `generate_instance`,
    `generate_enhancements`, lines 44-429);
  * per-method slot-marshaling adapters (`WrenImplValidFn::gen_vm_fn_body`,
    lines 565-736) and FFI wrappers (`gen_native_vm_fn`, lines 777-861);
  * declaration validation (`TryFrom for WrenImplValidFn`, lines 869-1022,
    and `WrenObjectImpl::validate`, lines 1095-1208);
  * registration glue (`wren_impl`, lines 1224-1513), including the
    foreign-object finalizer (`finalize_pointer`, lines 1455-1472).

This file shallow-embeds the value-level semantics of the generated code
and the decision logic of the generator itself, and proves the claimed
properties about them.
-/

/-! ## Field split model (generate_class / generate_instance / generate_enhancements)

A struct with named fields is modelled as a list of
`(field name, static flag, field value)` triples in declaration order; a
tuple struct drops the names.  The generated `From` impls select fields by
the `static_member` flag:
  * `From<Source> for SourceClass` keeps exactly the static fields
    (lib.rs lines 61-103 named, 105-166 unnamed);
  * `From<Source> for SourceInstance` keeps exactly the non-static fields
    (lines 187-231 named, 232-293 unnamed);
  * `From<(&Class, &Instance)> for Source` rebuilds the logical value,
    reading each named field from `class.name` / `inst.name`
    (lines 351-375) and each unnamed field from the running class /
    instance counters of the `scan` (lines 376-409).
-/

/-- Value content of the generated class record: the values of the fields
whose `static_member` flag is set, in declaration order
(`generate_class`, lib.rs lines 61-103). -/
def classRecord {V : Type} (fields : List (Bool × V)) : List V :=
  (fields.filter (fun f => f.1)).map (fun f => f.2)

/-- Value content of the generated instance record: the values of the
fields whose `static_member` flag is not set, in declaration order
(`generate_instance`, lib.rs lines 187-231). -/
def instanceRecord {V : Type} (fields : List (Bool × V)) : List V :=
  (fields.filter (fun f => !f.1)).map (fun f => f.2)

/-- Rebuild of an unnamed-field (tuple) logical value from the class and
instance records, following the `scan` with a class counter and an
instance counter in `generate_enhancements` (lib.rs lines 376-409): a
static field takes the next class value, any other field takes the next
instance value.  The exhausted-record branches cannot be reached for
records produced by the split. -/
def rebuildScan {V : Type} : List Bool → List V → List V → List V
  | [], _, _ => []
  | true :: m, c :: cs, is => c :: rebuildScan m cs is
  | true :: _, [], _ => []
  | false :: m, cs, i :: is => i :: rebuildScan m cs is
  | false :: _, _, [] => []

/-- Field access on a generated record with named fields, by field name
(first match, as in Rust where field names are unique). -/
def lookupF {V : Type} (n : String) : List (String × V) → Option V
  | [] => none
  | (m, v) :: rest => if m = n then some v else lookupF n rest

/-- Named view of the generated class record: name/value pairs of the
static fields in declaration order. -/
def classAssoc {V : Type} (fields : List (String × Bool × V)) : List (String × V) :=
  (fields.filter (fun f => f.2.1)).map (fun f => (f.1, f.2.2))

/-- Named view of the generated instance record: name/value pairs of the
non-static fields in declaration order. -/
def instanceAssoc {V : Type} (fields : List (String × Bool × V)) : List (String × V) :=
  (fields.filter (fun f => !f.2.1)).map (fun f => (f.1, f.2.2))

/-- Rebuild of a named-field logical value from the class and instance
records, per `generate_enhancements` (lib.rs lines 351-375): each field is
read from `class.#name` when its static flag is set and from `inst.#name`
otherwise. -/
def rebuildNamed {V : Type} (fields : List (String × Bool × V))
    (cls inst : List (String × V)) : List (Option V) :=
  fields.map (fun f => if f.2.1 then lookupF f.1 cls else lookupF f.1 inst)

/-! ## Finalizer (`finalize_pointer`, lib.rs lines 1455-1472)

The generated `_destructor` reads the `ForeignObject` out of VM storage,
drops the boxed instance only when the stored pointer is non-null, then
writes the object pointer back as null.  Storage is modelled as
`Option I` (`none` = null pointer); the second component counts how many
times the owned instance was dropped by the invocation. -/
def finalizePointer {I : Type} (storage : Option I) : Option I × Nat :=
  match storage with
  | some _ => (none, 1)
  | none => (none, 0)

/-! ## Slot marshaling engine (`WrenImplValidFn::gen_vm_fn_body`, lib.rs lines 565-736)

A validated method's non-receiver parameters are modelled in declaration
order; each parameter carries the flag saying whether it was declared as
an "object" parameter and the rendered name of its declared Rust type. -/

/-- One non-receiver parameter of a validated method. -/
structure PDecl where
  isObject : Bool
  tyName : String
  deriving DecidableEq, Repr

/-- The cursor ("calculation object") computation emitted for one slot.
`newC ty? slot arity` embeds `InputSlot::new::<ty>(slot_idx, arity)` /
`InputSlot::object_new(slot_idx, arity)` (lib.rs lines 577-580, 633-636;
the object form takes no type parameter, hence the `Option`);
`nextC ty? slot prevPos` embeds
`InputSlot::next::<ty>(slot_idx, &arg{prevPos}_calc)` /
`InputSlot::object_next(slot_idx, &arg{prevPos}_calc)`
(lines 581-588, 637-644). -/
inductive CursorCall where
  | newC (tyArg : Option String) (slot arity : Nat)
  | nextC (tyArg : Option String) (slot prevPos : Nat)
  deriving DecidableEq, Repr

/-- The total-arity argument of a cursor computation, when it has one:
only the fresh `new` / `object_new` forms take the arity
(`new::<#ty>(#slot_idx, #arity)`, lib.rs line 579 and 635); the chained
`next` / `object_next` forms take only the slot index and the previous
cursor (lines 585-587 and 641-643). -/
def CursorCall.arityArg : CursorCall → Option Nat
  | .newC _ _ arity => some arity
  | .nextC _ _ _ => none

/-- One argument expression of the final call to the underlying native
method (lib.rs lines 682-702): a plain parameter passes the extracted
binding `arg{pos}` through unchanged; an object parameter is narrowed
with `try_into`, panicking with a message naming the slot and the
declared type when the conversion fails (lines 687-696). -/
inductive CallArg where
  | plainRef (pos : Nat)
  | narrowed (pos : Nat) (slot : Nat) (tyName : String)
  deriving DecidableEq, Repr

/-- Insertion of a position-keyed entry into a position-sorted list. -/
def insertByPos {α : Type} (x : Nat × α) : List (Nat × α) → List (Nat × α)
  | [] => [x]
  | y :: ys => if x.1 ≤ y.1 then x :: y :: ys else y :: insertByPos x ys

/-- Sorting a position-keyed list by position, the embedding of the
`sort_by(|(a, ..), (b, ..)| a.cmp(b))` calls of `gen_vm_fn_body`
(lib.rs lines 681 and 720).  Positions are distinct there, so any
comparison sort computes the same list; insertion sort is used. -/
def sortByPos {α : Type} (l : List (Nat × α)) : List (Nat × α) :=
  l.foldr insertByPos []

/-- The `normal_params` / `object_params` data of a `WrenImplValidFn`
that `gen_vm_fn_body` consumes: positions (indices among the
non-receiver parameters) paired with the rendered declared type. -/
structure MethodParams where
  normal_params : List (Nat × String)
  object_params : List (Nat × String)
  deriving DecidableEq, Repr

/-- Embedding of `WrenImplValidFn::arity` (lib.rs lines 552-554). -/
def MethodParams.arity (m : MethodParams) : Nat :=
  m.normal_params.length + m.object_params.length

/-- The split a validated method declaration induces on its parameter
list: parameters are enumerated in declaration order and partitioned by
the object flag, keeping positions (`TryFrom for WrenImplValidFn`,
lib.rs lines 926-937). -/
def MethodParams.ofDecls (params : List PDecl) : MethodParams :=
  let typedEnum := params.enum
  let parted := typedEnum.partition (fun ip => ip.2.isObject)
  { normal_params := parted.2.map (fun ip => (ip.1, ip.2.tyName)),
    object_params := parted.1.map (fun ip => (ip.1, ip.2.tyName)) }

/-- The cursor computation `gen_vm_fn_body` emits for the parameter at
position `idx` (declared type rendered `ty`, object flag `isObj`):
slot index is `idx + 1`; position 0 gets a fresh cursor from
`(slot_idx, arity)`; a later position chains from `arg{idx-1}_calc` and
its own slot index (lib.rs lines 572-588 normal, 618-644 object). -/
def cursorFor (arity : Nat) (isObj : Bool) (ty : String) (idx : Nat) : CursorCall :=
  let tyArg : Option String := if isObj then none else some ty
  if idx = 0 then .newC tyArg (idx + 1) arity
  else .nextC tyArg (idx + 1) (idx - 1)

/-- The position-keyed list of cursor computations emitted by
`gen_vm_fn_body`: one per normal parameter and one per object parameter,
concatenated and then sorted by position (lib.rs lines 568-611, 612-672,
and the sort at lines 719-721). -/
def genExtractors (m : MethodParams) : List (Nat × CursorCall) :=
  sortByPos
    (m.normal_params.map (fun it => (it.1, cursorFor m.arity false it.2 it.1)) ++
      m.object_params.map (fun it => (it.1, cursorFor m.arity true it.2 it.1)))

/-- The argument list of the final native call emitted by
`gen_vm_fn_body`: object parameters tagged `true` and normal parameters
tagged `false`, sorted by position, then rendered — object arguments as
the narrowing `try_into` match, plain arguments as the bare binding
(lib.rs lines 674-702). -/
def genCallOrder (m : MethodParams) : List CallArg :=
  let call_args :=
    sortByPos
      (m.object_params.map (fun it => (it.1, (it.2, true))) ++
        m.normal_params.map (fun it => (it.1, (it.2, false))))
  call_args.map (fun it =>
    if it.2.2 then .narrowed it.1 (it.1 + 1) it.2.1 else .plainRef it.1)

/-- The fiber-abort / constructor-error message of a failed slot
extraction: `format!("failed to get value of type {..} for slot {..}",
std::any::type_name::<ty>(), slot_idx)` (lib.rs lines 591, 595, 652,
656). -/
def failMsg (tyName : String) (slot : Nat) : String :=
  "failed to get value of type " ++ tyName ++ " for slot " ++ toString slot

/-- The panic message of a failed object-argument narrowing:
`panic!("slot {..} cannot be type {..}", slot_idx,
std::any::type_name::<ty>())` (lib.rs lines 690-695). -/
def panicMsg (slot : Nat) (tyName : String) : String :=
  "slot " ++ toString slot ++ " cannot be type " ++ tyName

/-- Result of running one generated adapter body.  `abortFiber msg`
models writing `msg` to slot 0 followed by `vm.abort_fiber(0)` and an
early return (lib.rs lines 594-598); `ctorErr msg` models the
constructor-mode `return Err(msg)` (lines 590-592); `panicked msg`
models a Rust panic raised while building the call arguments (lines
690-695); `completed args` models the underlying native method being
invoked with `args`, in that order (lines 708-716). -/
inductive Outcome (V : Type) where
  | abortFiber (msg : String)
  | ctorErr (msg : String)
  | panicked (msg : String)
  | completed (args : List V)
  deriving DecidableEq, Repr

/-- Sequential slot extraction over one group of parameters, in list
order, with `ext` giving the value the VM slot layer yields for each
position (`get_slot_value` / `get_slot_object`, lib.rs lines 605 and
666): the first position whose extraction yields no value stops the
group with that position and its declared type. -/
def extractAll {V : Type} (ext : Nat → Option V) :
    List (Nat × String) → Except (Nat × String) (List (Nat × V))
  | [] => .ok []
  | (i, ty) :: rest =>
    match ext i with
    | none => .error (i, ty)
    | some v =>
      match extractAll ext rest with
      | .error e => .error e
      | .ok vs => .ok ((i, v) :: vs)

/-- Position lookup among the extracted argument bindings (referencing
the `arg{pos}` binder in the emitted call). -/
def lookupPos {V : Type} (i : Nat) : List (Nat × V) → Option V
  | [] => none
  | (j, v) :: rest => if j = i then some v else lookupPos i rest

/-- Evaluation of the final call's argument expressions in call order
(Rust evaluates them left to right): a plain argument reads its binding;
an object argument additionally applies the narrowing conversion
`narrow`, and its failure produces the panic data `(slot, declared
type)` (lib.rs lines 682-702).  The `lookupPos` failure branch cannot be
reached from `runBody`, where every position has been extracted. -/
def buildArgs {V : Type} (narrow : Nat → V → Option V) (vals : List (Nat × V)) :
    List (Nat × String × Bool) → Except (Nat × String) (List V)
  | [] => .ok []
  | (i, ty, isObj) :: rest =>
    match lookupPos i vals with
    | none => .error (i + 1, ty)
    | some v =>
      if isObj then
        match narrow i v with
        | none => .error (i + 1, ty)
        | some w =>
          match buildArgs narrow vals rest with
          | .error e => .error e
          | .ok ws => .ok (w :: ws)
      else
        match buildArgs narrow vals rest with
        | .error e => .error e
        | .ok ws => .ok (v :: ws)

/-- Runtime behaviour of the body generated by `gen_vm_fn_body`
(lib.rs lines 565-736), for the method described by `m`:
normal parameters are extracted first, in their declaration order, then
object parameters (lines 723-733); the first failed extraction aborts
the fiber with `failMsg` — or returns it as a constructor error when
`ctorMode` is set — and the native method is never invoked; otherwise
the call arguments are evaluated in position order, a failed object
narrowing panics with `panicMsg`, and on success the native method runs
on the arguments in declaration order. -/
def runBody {V : Type} (ctorMode : Bool) (m : MethodParams)
    (ext : Nat → Option V) (narrow : Nat → V → Option V) : Outcome V :=
  match extractAll ext m.normal_params with
  | .error (i, ty) =>
    if ctorMode then .ctorErr (failMsg ty (i + 1)) else .abortFiber (failMsg ty (i + 1))
  | .ok nvals =>
    match extractAll ext m.object_params with
    | .error (i, ty) =>
      if ctorMode then .ctorErr (failMsg ty (i + 1)) else .abortFiber (failMsg ty (i + 1))
    | .ok ovals =>
      let call_args :=
        sortByPos
          (m.object_params.map (fun it => (it.1, (it.2, true))) ++
            m.normal_params.map (fun it => (it.1, (it.2, false))))
      match buildArgs narrow (nvals ++ ovals) call_args with
      | .error (slot, ty) => .panicked (panicMsg slot ty)
      | .ok args => .completed args

/-- Structure of the FFI wrapper emitted by
`WrenImplValidFn::gen_native_vm_fn` (lib.rs lines 777-861), identical in
the static and instance branches for the recorded aspects.  Each field
records whether the emitted `unsafe extern "C" fn` contains the
corresponding construct: it reads the `UserData` back out of the VM
(lines 794-796 / 822-824), installs a no-op panic hook for the duration
of the call (line 800 / 828), wraps the call to the generated `vm_*`
method in `catch_unwind` / `ruwren::handle_panic` (it does not — the
body invokes the method directly inside a plain block, lines 802-809 /
830-846, and `handle_panic` is never called anywhere in the generated
code), restores the previous hook (line 810 / 847), and writes the
`UserData` back (lines 811-814 / 848-851). -/
structure NativeWrapperShape where
  recoversUserData : Bool
  installsNoopPanicHook : Bool
  callsUnderCatchUnwind : Bool
  restoresPanicHook : Bool
  writesBackUserData : Bool
  deriving DecidableEq, Repr

/-- The wrapper shape `gen_native_vm_fn` emits, by receiver kind
(lib.rs lines 789-854). -/
def genNativeVmFnShape (_is_static : Bool) : NativeWrapperShape :=
  { recoversUserData := true
    installsNoopPanicHook := true
    callsUnderCatchUnwind := false
    restoresPanicHook := true
    writesBackUserData := true }

/-! ## Declaration layer (syn subset)

Just enough of the Rust surface syntax is modelled to express the shapes
the macro inspects: patterns (an identifier or anything else), types (a
path identified by its last segment, a reference, `_`, `()`, the exact
`Result<FooInstance, String>` shape — a path whose last segment is
`Result` — and anything else), return types, and function arguments
(a `self` receiver or a typed pattern). -/

/-- A function-argument pattern (`syn::Pat`): the macro only inspects
whether it is a plain identifier (lib.rs lines 917-920, 934-936). -/
inductive RPat where
  | ident (name : String)
  | other
  deriving DecidableEq, Repr

/-- A Rust type, to the extent inspected by the macro. -/
inductive RType where
  | path (lastSeg : String)
  | reference (inner : RType)
  | infer
  | unit
  | resultOf (instName : String)
  | other
  deriving DecidableEq, Repr

/-- Last path segment of a type when it is a `syn::Type::Path`
(`Result<I, String>` is a path whose last segment ident is `Result`);
`none` for non-path types (lib.rs lines 1039-1047). -/
def RType.lastSeg : RType → Option String
  | .path s => some s
  | .resultOf _ => some "Result"
  | _ => none

/-- Token rendering of a type, used in diagnostics
(`into_token_stream` in the error messages). -/
def RType.render : RType → String
  | .path s => s
  | .reference t => "& " ++ t.render
  | .infer => "_"
  | .unit => "()"
  | .resultOf i => "Result < " ++ i ++ " , String >"
  | .other => "<type>"

/-- A return type (`syn::ReturnType`): either omitted or `-> t`. -/
inductive RetTy where
  | default
  | ty (t : RType)
  deriving DecidableEq, Repr

/-- Token rendering of a return type in the setter diagnostic: an
omitted return type prints as `()` (lib.rs lines 968-971). -/
def RetTy.render : RetTy → String
  | .default => "()"
  | .ty t => t.render

/-- An argument (`syn::FnArg`): a `self` receiver or a typed pattern. -/
inductive RFnArg where
  | receiver
  | typed (pat : RPat) (ty : RType)
  deriving DecidableEq, Repr

/-- A function signature (`syn::Signature`), restricted to what the
macro reads: name, inputs, output. -/
structure RSig where
  ident : String
  inputs : List RFnArg
  output : RetTy
  deriving DecidableEq, Repr

/-- The `wren_impl` per-method attributes (`WrenImplFnAttrs`, lib.rs
lines 492-507), all defaulted.  `instanceFlag` is the source's
`instance` field (a Lean keyword); `ignore` is the extra flag added in
this fork (lib.rs line 504). -/
structure WrenImplFnAttrs where
  allocator : Bool := false
  constructor : Bool := false
  instanceFlag : Bool := false
  getter : Bool := false
  setter : Bool := false
  ignore : Bool := false
  object : List String := []
  deriving DecidableEq, Repr

/-- A parsed impl-block item (`WrenImplFn`, lib.rs lines 863-867). -/
structure WrenImplFn where
  sig : RSig
  attrs : WrenImplFnAttrs
  deriving DecidableEq, Repr

/-- A typed non-receiver parameter (`syn::PatType`). -/
structure PatTy where
  pat : RPat
  ty : RType
  deriving DecidableEq, Repr

/-- A validated method (`WrenImplValidFn`, lib.rs lines 509-518); `sig`
is the function signature after the possible `getter_` / `setter_`
rename (lines 1002-1009). -/
structure WrenImplValidFn where
  receiver_ty : RType
  is_static : Bool
  is_setter : Bool
  is_getter : Bool
  source_name : Option String
  normal_params : List (Nat × PatTy)
  object_params : List (Nat × PatTy)
  sig : RSig
  deriving DecidableEq, Repr

/-- Embedding of `WrenImplValidFn::arity` (lib.rs lines 552-554). -/
def WrenImplValidFn.arity (f : WrenImplValidFn) : Nat :=
  f.normal_params.length + f.object_params.length

/-- Embedding of `WrenImplValidFn::source_name` (lib.rs lines 556-558): the original
declared name when the function was renamed, else the declared name. -/
def WrenImplValidFn.source_nameStr (f : WrenImplValidFn) : String :=
  f.source_name.getD f.sig.ident

def classTypeName (ty : String) : String := ty ++ "Class"

def instanceTypeName (ty : String) : String := ty ++ "Instance"

def wrapperTypeName (ty : String) : String := ty ++ "Wrapper"

/-- Embedding of `sig.receiver().is_some()`: syn reports a receiver only when the
first input is one. -/
def hasSelfReceiver (sig : RSig) : Bool :=
  match sig.inputs.head? with
  | some .receiver => true
  | _ => false

/-- First stage of `TryFrom<(&Ident, WrenImplFn)> for WrenImplValidFn`
(lib.rs lines 872-906): with a `self` receiver, the receiver type is the
wrapper (instance methods) or class type and `args` keeps the full input
list; without one, the first typed parameter is consumed as the receiver
type and `args` is the remainder; a receiver-less method with no typed
first parameter is rejected. -/
def receiverSplit (src : String) (value : WrenImplFn) :
    Except (List String) (RType × List RFnArg × Bool) :=
  if hasSelfReceiver value.sig then
    .ok
      (if value.attrs.instanceFlag then .path (wrapperTypeName src)
        else .path (classTypeName src),
        value.sig.inputs, true)
  else
    match value.sig.inputs.head? with
    | some (.typed _ t) => .ok (t, value.sig.inputs.drop 1, false)
    | _ => .error ["method " ++ value.sig.ident ++ " must have a receiver"]

/-- Whether an argument is a typed parameter whose pattern is the given
identifier (the object-name search, lib.rs lines 908-924). -/
def argNamed (name : String) (a : RFnArg) : Bool :=
  match a with
  | .receiver => false
  | .typed (.ident n) _ => n == name
  | .typed _ _ => false

/-- The typed (non-receiver) parameters of an argument list, in order
(the `filter_map` at lib.rs lines 926-931). -/
def typedArgs (args : List RFnArg) : List PatTy :=
  args.filterMap (fun a =>
    match a with
    | .typed p t => some ⟨p, t⟩
    | .receiver => none)

/-- Whether a typed parameter is named in the attribute's object list
(the partition predicate, lib.rs lines 934-936). -/
def isObjectParam (objectNames : List String) (pt : PatTy) : Bool :=
  match pt.pat with
  | .ident n => objectNames.contains n
  | _ => false

/-- The unknown-object-name diagnostics (lib.rs lines 908-924 and
939-948): one error per attribute object name that matches no
identifier-patterned argument. -/
def objectNameErrs (value : WrenImplFn) (args : List RFnArg) : List String :=
  value.attrs.object.filterMap (fun name =>
    if args.any (argNamed name) then none
    else some ("Could not find top-level object argument " ++ name))

/-- The setter-shape check (lib.rs lines 952-977): with the `setter`
attribute, the argument list (receiver included, when present) must have
length 2 / 1 and the return type must be omitted or `()`; on success the
renamed `setter_*` name is produced, otherwise the diagnostic.  Returns
`(errors, given_name, is_setter)`. -/
def setterCheck (value : WrenImplFn) (args : List RFnArg) (has_self : Bool) :
    List String × Option String × Bool :=
  if value.attrs.setter then
    if args.length = (if has_self then 2 else 1) ∧
        (value.sig.output = .default ∨ value.sig.output = .ty .unit) then
      ([], some ("setter_" ++ value.sig.ident), true)
    else
      (["setter " ++ value.sig.ident ++ " must take 1 non-receiver argument (takes "
          ++ toString args.length ++ " arguments), and return () (returns "
          ++ value.sig.output.render ++ ")"], none, false)
  else ([], none, false)

/-- The getter-shape check (lib.rs lines 979-997): with the `getter`
attribute, the argument list must have length 1 / 0; on success the
renamed `getter_*` name is produced, otherwise the diagnostic. -/
def getterCheck (value : WrenImplFn) (args : List RFnArg) (has_self : Bool) :
    List String × Option String × Bool :=
  if value.attrs.getter then
    if args.length = (if has_self then 1 else 0) then
      ([], some ("getter_" ++ value.sig.ident), true)
    else
      (["getter " ++ value.sig.ident ++ " must take no non-receiver arguments (takes "
          ++ toString args.length ++ " arguments)"], none, false)
  else ([], none, false)

/-- Embedding of `TryFrom<(&Ident, WrenImplFn)> for WrenImplValidFn` (lib.rs lines
869-1022).  Collects, in push order, the unknown-object-name errors, the
setter-shape error and the getter-shape error; on success the parameters
are enumerated and partitioned into object/normal lists with their
positions, and a successful getter/setter is renamed with the
`getter_` / `setter_` prefix, keeping the original as `source_name`
(the getter rename overwrites the setter's, as in the source's
sequential assignment). -/
def tryFromFn (src : String) (value : WrenImplFn) : Except (List String) WrenImplValidFn :=
  match receiverSplit src value with
  | .error e => .error e
  | .ok (receiver_ty, args, has_self) =>
    let parted := (typedArgs args).enum.partition
      (fun ip => isObjectParam value.attrs.object ip.2)
    let setterResult := setterCheck value args has_self
    let getterResult := getterCheck value args has_self
    let errors := objectNameErrs value args ++ setterResult.1 ++ getterResult.1
    if errors.isEmpty then
      let given_name := match getterResult.2.1 with
        | some n => some n
        | none => setterResult.2.1
      match given_name with
      | some g =>
        .ok { receiver_ty := receiver_ty
              is_static := !value.attrs.instanceFlag
              is_setter := setterResult.2.2
              is_getter := getterResult.2.2
              source_name := some value.sig.ident
              normal_params := parted.2
              object_params := parted.1
              sig := { value.sig with ident := g } }
      | none =>
        .ok { receiver_ty := receiver_ty
              is_static := !value.attrs.instanceFlag
              is_setter := setterResult.2.2
              is_getter := getterResult.2.2
              source_name := none
              normal_params := parted.2
              object_params := parted.1
              sig := value.sig }
    else .error errors

/-- Embedding of `WrenImplFn::validate_allocator` (lib.rs lines 1025-1067): pushes an
error when the allocator takes parameters; an omitted or `_` return type
is auto-completed to the class type; a path return type must name the
class type; anything else is an error.  Returns the collected errors and
the (possibly output-completed) function. -/
def validateAllocator (src : String) (fi : WrenImplFn) : List String × WrenImplFn :=
  let class_ty := classTypeName src
  let inputErrs :=
    if fi.sig.inputs.isEmpty then [] else ["allocators cannot take any parameters"]
  match fi.sig.output with
  | .default =>
    (inputErrs, { fi with sig := { fi.sig with output := .ty (.path class_ty) } })
  | .ty t =>
    match t.lastSeg with
    | some s =>
      if s = class_ty then (inputErrs, fi)
      else
        (inputErrs ++ ["allocators must return " ++ class_ty ++ ", but allocator returned "
            ++ t.render], fi)
    | none =>
      match t with
      | .infer =>
        (inputErrs, { fi with sig := { fi.sig with output := .ty (.path class_ty) } })
      | t' =>
        (inputErrs ++ ["allocators must return " ++ class_ty ++ ", but allocator returned "
            ++ t'.render], fi)

/-- The exact constructor return shape `Result<SrcInstance, String>`
(lib.rs lines 1136-1147). -/
def ctorExpectedOutput (src : String) : RetTy :=
  .ty (.resultOf (instanceTypeName src))

/-- Constructor output auto-completion (lib.rs lines 1134-1145): an
omitted or `_` return type becomes `Result<SrcInstance, String>`. -/
def autocompleteCtorOutput (src : String) (vf : WrenImplValidFn) : WrenImplValidFn :=
  match vf.sig.output with
  | .default => { vf with sig := { vf.sig with output := ctorExpectedOutput src } }
  | .ty .infer => { vf with sig := { vf.sig with output := ctorExpectedOutput src } }
  | _ => vf

/-- The constructor receiver check (lib.rs lines 1149-1152): a reference
whose element is the class type, or the class type itself. -/
def ctorReceiverOk (src : String) (t : RType) : Bool :=
  match t with
  | .reference inner => decide (inner = RType.path (classTypeName src))
  | .path p => decide (p = classTypeName src)
  | _ => false

/-- Constructor validation within `WrenObjectImpl::validate` (lib.rs
lines 1129-1179): general validation via `tryFromFn`, then output
auto-completion, the exact-output check, and the receiver check. -/
def validateConstructor (src : String) (fi : WrenImplFn) :
    List String × Option WrenImplValidFn :=
  match tryFromFn src fi with
  | .error errs => (errs, none)
  | .ok vf0 =>
    let vf := autocompleteCtorOutput src vf0
    if vf.sig.output = ctorExpectedOutput src then
      if ctorReceiverOk src vf.receiver_ty then ([], some vf)
      else
        (["A constructor must receive &mut " ++ classTypeName src ++ " (or &"
            ++ classTypeName src ++ "), but it receives " ++ vf.receiver_ty.render], none)
    else
      (["A constructor must return Result < " ++ instanceTypeName src
          ++ " , String >, but it returns " ++ vf.sig.output.render], none)

/-- A parsed `wren_impl` block (`WrenObjectImpl`, lib.rs lines
1083-1086). -/
structure WrenObjectImpl where
  ty : String
  items : List WrenImplFn
  deriving DecidableEq, Repr

/-- The validated impl block (`WrenObjectValidImpl`, lib.rs lines
1088-1093). -/
structure WrenObjectValidImpl where
  ty : String
  allocator : Option WrenImplFn
  constructor : Option WrenImplValidFn
  others : List WrenImplValidFn
  deriving DecidableEq, Repr

/-- The items resolved as plain methods: not ignored, not a constructor,
not an allocator (the `others` filter, lib.rs lines 1181-1184). -/
def othersFilter (items : List WrenImplFn) : List WrenImplFn :=
  items.filter (fun fi => !fi.attrs.ignore && !fi.attrs.constructor && !fi.attrs.allocator)

/-- The errors contributed by the plain-method validations, in item
order (lib.rs lines 1186-1195). -/
def otherErrors (src : String) (items : List WrenImplFn) : List String :=
  (othersFilter items).flatMap (fun fi =>
    match tryFromFn src fi with
    | .error errs => errs
    | .ok _ => [])

/-- The successfully validated plain methods, in item order (lib.rs
lines 1186-1195). -/
def resolvedMethods (self : WrenObjectImpl) : List WrenImplValidFn :=
  (othersFilter self.items).filterMap (fun fi =>
    match tryFromFn self.ty fi with
    | .ok v => some v
    | .error _ => none)

/-- The allocator-shape errors: the first allocator-flagged item's
`validate_allocator` errors, if any allocator is declared (lib.rs lines
1105-1118). -/
def allocErrorsOf (self : WrenObjectImpl) : List String :=
  match (self.items.filter (fun fi => fi.attrs.allocator)).head? with
  | some a => (validateAllocator self.ty a).1
  | none => []

/-- The constructor-shape errors: the first constructor-flagged item's
validation errors, if any constructor is declared (lib.rs lines
1129-1179). -/
def ctorErrorsOf (self : WrenObjectImpl) : List String :=
  match (self.items.filter (fun fi => fi.attrs.constructor)).head? with
  | some c => (validateConstructor self.ty c).1
  | none => []

/-- The aggregated error list of one validation run, in the source's
push order: allocator shape errors, then constructor errors, then the
plain methods' errors (the `errors` vector of lib.rs lines 1103-1195). -/
def combinedErrors (self : WrenObjectImpl) : List String :=
  allocErrorsOf self ++ ctorErrorsOf self ++ otherErrors self.ty self.items

/-- Embedding of `WrenObjectImpl::validate` (lib.rs lines 1095-1208).  More than one
allocator-flagged item, or more than one constructor-flagged item,
returns immediately with only the count diagnostic (the two `return
Err(vec![..])` at lines 1105-1112 and 1120-1127); otherwise every
failure collected by the allocator, constructor and plain-method
validations is reported together, and with no failures the validated
impl is produced. -/
def WrenObjectImpl.validate (self : WrenObjectImpl) :
    Except (List String) WrenObjectValidImpl :=
  let allocators := self.items.filter (fun fi => fi.attrs.allocator)
  let constructors := self.items.filter (fun fi => fi.attrs.constructor)
  if allocators.length ≤ 1 then
    if constructors.length ≤ 1 then
      let errors := combinedErrors self
      if errors.isEmpty then
        .ok { ty := self.ty
              allocator := allocators.head?.map (fun a => (validateAllocator self.ty a).2)
              constructor :=
                match constructors.head? with
                | some c => (validateConstructor self.ty c).2
                | none => none
              others := resolvedMethods self }
      else .error errors
    else .error ["Expected 0 or 1 constructors, found " ++ toString constructors.length]
  else .error ["Expected 0 or 1 allocators, found " ++ toString allocators.length]

/-- A `FunctionSignature` of the registration table (lib.rs lines
1325-1331). -/
inductive FunctionSignature where
  | getter (name : String)
  | setter (name : String)
  | function (name : String) (arity : Nat)
  deriving DecidableEq, Repr

/-- A registration-table entry (`MethodPointer`, lib.rs lines
1332-1338); the pointer is identified by the name of the emitted
`native_vm_*` wrapper. -/
structure MethodPointer where
  is_static : Bool
  signature : FunctionSignature
  pointer : String
  deriving DecidableEq, Repr

/-- Which allocator body `V2Class::allocate` calls (lib.rs lines
1284-1296): the user-declared function, or the synthesized
`___default_alloc`, whose body is `Source::default().into()`. -/
inductive AllocatorCall where
  | user (fnName : String)
  | defaulted
  deriving DecidableEq, Repr

/-- Which constructor body `ForeignItem::construct` calls (lib.rs lines
1298-1311): the user constructor's `vm_*` wrapper, or the synthesized
`___default_constructor`, whose body is `Ok(Source::default().into())`. -/
inductive ConstructorCall where
  | user (vmFnName : String)
  | defaulted
  deriving DecidableEq, Repr

/-- The registration data `wren_impl` assembles for one type. -/
structure RegOutput where
  allocatorCall : AllocatorCall
  constructorCall : ConstructorCall
  methods : List MethodPointer
  deriving DecidableEq, Repr

/-- The registration-table entry generated for one plain method
(`function_decls`, lib.rs lines 1312-1339): static flag, a
getter/setter/function signature under the script-visible source name,
and the `native_vm_*` wrapper named after the (possibly renamed)
function. -/
def methodPointerOf (f : WrenImplValidFn) : MethodPointer :=
  { is_static := f.is_static
    signature :=
      if f.is_getter then .getter f.source_nameStr
      else if f.is_setter then .setter f.source_nameStr
      else .function f.source_nameStr f.arity
    pointer := "native_vm_" ++ f.sig.ident }

/-- The `wren_impl` entry point (lib.rs lines 1224-1513), reduced to
the registration decisions: validation, then the choice of allocator
and constructor calls and the method table. -/
def wrenImpl (self : WrenObjectImpl) : Except (List String) RegOutput :=
  match self.validate with
  | .error errs => .error errs
  | .ok valid =>
    .ok { allocatorCall :=
            match valid.allocator with
            | some a => .user a.sig.ident
            | none => .defaulted
          constructorCall :=
            match valid.constructor with
            | some c => .user ("vm_" ++ c.sig.ident)
            | none => .defaulted
          methods := valid.others.map methodPointerOf }

/-- Value semantics of the synthesized `___default_alloc` (lib.rs lines
1257-1264): `Source::default().into()`, the class record of the logical
type's default value (whose fields are `defaultFields`). -/
def defaultAllocatorResult {V : Type} (defaultFields : List (Bool × V)) : List V :=
  classRecord defaultFields

/-- Value semantics of the synthesized `___default_constructor` (lib.rs
lines 1275-1282): `Ok(Source::default().into())`, the instance record of
the logical type's default value. -/
def defaultConstructorResult {V : Type} (defaultFields : List (Bool × V)) :
    Except String (List V) :=
  .ok (instanceRecord defaultFields)

/-! # Theorems -/

/-! ## Sorting facts for the position-keyed emission lists -/

theorem insertByPos_perm {α : Type} (x : Nat × α) (l : List (Nat × α)) :
    List.Perm (insertByPos x l) (x :: l) := by
  induction l with
  | nil => exact List.Perm.refl _
  | cons y ys ih =>
    by_cases h : x.1 ≤ y.1
    · simp [insertByPos, h]
    · simp only [insertByPos, if_neg h]
      exact (List.Perm.cons y ih).trans (List.Perm.swap x y ys)

theorem sortByPos_perm {α : Type} (l : List (Nat × α)) : List.Perm (sortByPos l) l := by
  induction l with
  | nil => exact List.Perm.refl _
  | cons x xs ih =>
    simp only [sortByPos, List.foldr] at ih ⊢
    exact (insertByPos_perm x _).trans (List.Perm.cons x ih)

theorem insertByPos_sorted {α : Type} (x : Nat × α) (l : List (Nat × α))
    (h : l.Pairwise (fun a b => a.1 ≤ b.1)) :
    (insertByPos x l).Pairwise (fun a b => a.1 ≤ b.1) := by
  induction l with
  | nil => simp [insertByPos]
  | cons y ys ih =>
    rcases List.pairwise_cons.mp h with ⟨hy, hys⟩
    by_cases hxy : x.1 ≤ y.1
    · simp only [insertByPos, if_pos hxy]
      refine List.pairwise_cons.mpr ⟨?_, h⟩
      intro z hz
      rcases List.mem_cons.mp hz with rfl | hz
      · exact hxy
      · exact hxy.trans (hy z hz)
    · simp only [insertByPos, if_neg hxy]
      refine List.pairwise_cons.mpr ⟨?_, ih hys⟩
      intro z hz
      have hz' := (insertByPos_perm x ys).mem_iff.mp hz
      rcases List.mem_cons.mp hz' with rfl | hz'
      · exact Nat.le_of_lt (Nat.lt_of_not_le hxy)
      · exact hy z hz'

theorem sortByPos_sorted {α : Type} (l : List (Nat × α)) :
    (sortByPos l).Pairwise (fun a b => a.1 ≤ b.1) := by
  induction l with
  | nil => simp [sortByPos]
  | cons x xs ih =>
    simp only [sortByPos, List.foldr] at ih ⊢
    exact insertByPos_sorted x _ ih

/-- Two strictly position-sorted lists that are permutations coincide. -/
theorem sorted_lt_unique {α : Type} :
    ∀ (l E : List (Nat × α)), List.Perm l E →
      l.Pairwise (fun a b => a.1 < b.1) → E.Pairwise (fun a b => a.1 < b.1) → l = E := by
  intro l
  induction l with
  | nil =>
    intro E hp _ _
    exact (hp.symm.eq_nil).symm
  | cons x xs ih =>
    intro E hp hl hE
    cases E with
    | nil => exact absurd hp.eq_nil (by simp)
    | cons y ys =>
      have hx : x ∈ y :: ys := hp.mem_iff.mp (List.mem_cons_self x xs)
      have hy : y ∈ x :: xs := hp.mem_iff.mpr (List.mem_cons_self y ys)
      have hxy : x = y := by
        rcases List.mem_cons.mp hx with h1 | h1
        · exact h1
        · rcases List.mem_cons.mp hy with h2 | h2
          · exact h2.symm
          · have hlt1 : x.1 < y.1 := (List.pairwise_cons.mp hl).1 y h2
            have hlt2 : y.1 < x.1 := (List.pairwise_cons.mp hE).1 x h1
            exact absurd (Nat.lt_trans hlt1 hlt2) (Nat.lt_irrefl _)
      subst hxy
      have hp' : List.Perm xs ys := hp.cons_inv
      have htail := ih ys hp' (List.pairwise_cons.mp hl).2 (List.pairwise_cons.mp hE).2
      rw [htail]

theorem sortByPos_eq {α : Type} (l E : List (Nat × α))
    (hperm : List.Perm l E) (hE : E.Pairwise (fun a b => a.1 < b.1)) :
    sortByPos l = E := by
  have hp : List.Perm (sortByPos l) E := (sortByPos_perm l).trans hperm
  have hne : E.Pairwise (fun a b => a.1 ≠ b.1) := hE.imp (fun h => Nat.ne_of_lt h)
  have hnel : (sortByPos l).Pairwise (fun a b => a.1 ≠ b.1) :=
    (hp.pairwise_iff (fun h => h.symm)).mpr hne
  have hslt : (sortByPos l).Pairwise (fun a b => a.1 < b.1) :=
    ((sortByPos_sorted l).and hnel).imp (fun h => Nat.lt_of_le_of_ne h.1 h.2)
  exact sorted_lt_unique _ _ hp hslt hE

theorem pairwise_lt_enum_map {α β : Type} (l : List α) (F : Nat × α → Nat × β)
    (hF : ∀ x, (F x).1 = x.1) :
    ((l.enum).map F).Pairwise (fun a b => a.1 < b.1) := by
  rw [List.pairwise_map]
  have h1 : ((l.enum).map Prod.fst).Pairwise (· < ·) := by
    rw [List.enum_map_fst]
    exact List.pairwise_lt_range l.length
  have h0 : (l.enum).Pairwise (fun a b : Nat × α => a.1 < b.1) := List.pairwise_map.mp h1
  exact h0.imp (fun h => by simpa [hF] using h)

theorem filterMap_append_perm_enum {α β : Type} (l : List (Nat × α)) (q : Nat × α → Bool)
    (F : Nat × α → Nat × β) :
    List.Perm ((l.filter q).map F ++ (l.filter (fun x => !q x)).map F) (l.map F) := by
  rw [← List.map_append]
  exact (List.filter_append_perm q l).map F

/-- Re-merging the position-keyed halves of a stable partition of an
enumeration, in either concatenation order, recovers enumeration
order. -/
theorem sortByPos_partition_recombine {α β : Type} (params : List α)
    (q : Nat × α → Bool) (F : Nat × α → Nat × β) (hF : ∀ x, (F x).1 = x.1) :
    sortByPos ((params.enum.filter q).map F ++ (params.enum.filter (fun x => !q x)).map F)
        = params.enum.map F ∧
    sortByPos ((params.enum.filter (fun x => !q x)).map F ++ (params.enum.filter q).map F)
        = params.enum.map F := by
  constructor
  · exact sortByPos_eq _ _ (filterMap_append_perm_enum _ q F) (pairwise_lt_enum_map params F hF)
  · exact sortByPos_eq _ _
      ((List.perm_append_comm).trans (filterMap_append_perm_enum _ q F))
      (pairwise_lt_enum_map params F hF)

/-- C1. For every logical type derived with the field-split model,
splitting a logical value into its class record (static fields) and
instance record (non-static fields) and rebuilding from the pair
recovers every field: static fields via the class half, others via the
instance half.  The first conjunct covers tuple structs (and, with an
empty field list, unit structs); the second covers named-field structs,
whose field names are distinct in Rust. -/
theorem wrenObject_split_roundtrip :
    (∀ (V : Type) (fs : List (Bool × V)),
      rebuildScan (fs.map (fun f => f.1)) (classRecord fs) (instanceRecord fs)
        = fs.map (fun f => f.2)) ∧
    (∀ (V : Type) (fs : List (String × Bool × V)),
      (fs.map (fun f => f.1)).Nodup →
      rebuildNamed fs (classAssoc fs) (instanceAssoc fs)
        = fs.map (fun f => some f.2.2)) := by
  constructor
  · intro V fs
    induction fs with
    | nil => rfl
    | cons f rest ih =>
      obtain ⟨b, v⟩ := f
      cases b <;>
        simp [classRecord, instanceRecord, List.filter, rebuildScan] at ih ⊢ <;>
        exact ih
  · intro V fs hnd
    have key : ∀ (g : List (String × Bool × V)) (f : String × Bool × V),
        (g.map (fun f => f.1)).Nodup → f ∈ g →
        (if f.2.1 then lookupF f.1 (classAssoc g) else lookupF f.1 (instanceAssoc g))
          = some f.2.2 := by
      intro g
      induction g with
      | nil => intro f _ hf; cases hf
      | cons hd rest ih =>
        obtain ⟨hn, bd, vd⟩ := hd
        intro f hnd hf
        have hnd' : (rest.map (fun f => f.1)).Nodup := by
          simpa [List.nodup_cons] using hnd.of_cons
        have hhd : hn ∉ rest.map (fun f => f.1) := by
          simpa using (List.nodup_cons.mp hnd).1
        rcases List.mem_cons.mp hf with hf | hf
        · subst hf
          cases bd <;> simp [classAssoc, instanceAssoc, List.filter, lookupF]
        · have hne : hn ≠ f.1 := by
            intro h
            exact hhd (h ▸ List.mem_map_of_mem (fun f => f.1) hf)
          have := ih f hnd' hf
          cases bd <;>
            simp only [classAssoc, instanceAssoc, List.filter, lookupF] at this ⊢ <;>
            split <;>
            simp_all [lookupF, hne]
    calc rebuildNamed fs (classAssoc fs) (instanceAssoc fs)
        = fs.map (fun f => some f.2.2) := by
          apply List.map_congr_left
          intro f hf
          exact key fs f hnd hf

/-- Witness for C1 at a concrete named-field struct: two fields, the
first static, with distinct names. -/
theorem wrenObject_split_roundtrip_witness :
    rebuildNamed [("shared", true, (10 : Nat)), ("local", false, 20)]
        (classAssoc [("shared", true, (10 : Nat)), ("local", false, 20)])
        (instanceAssoc [("shared", true, (10 : Nat)), ("local", false, 20)])
      = [some 10, some 20] := by
  have h := wrenObject_split_roundtrip.2 Nat
    [("shared", true, (10 : Nat)), ("local", false, 20)] (by decide)
  simpa using h

/-- C8. The generated finalizer drops the owned instance exactly once:
a non-null pointer is released (one drop) and null is written back; an
invocation that finds a null pointer performs no drop; in particular a
second invocation on the storage left by any first invocation is a
no-op. -/
theorem finalize_pointer_idempotent :
    ∀ (I : Type) (s : Option I),
      (finalizePointer s).1 = none ∧
      (∀ i : I, finalizePointer (some i) = (none, 1)) ∧
      finalizePointer (none : Option I) = (none, 0) ∧
      finalizePointer (finalizePointer s).1 = (none, 0) := by
  intro I s
  refine ⟨?_, fun i => rfl, rfl, ?_⟩ <;> cases s <;> rfl

/-- C2 (amended). For a method whose non-receiver parameters are
`params` in declaration order, the marshaling body generated by
`gen_vm_fn_body` emits the cursor computations strictly in position
order regardless of plain/object grouping, assigning parameter `i` to
slot `i + 1`; the cursor at position 0 is created fresh from
`(slot_index, total_arity)`, and the cursor at each position `k > 0` is
derived from position `k - 1`'s cursor plus its own slot index alone
(the total arity is not an input of the chained derivation); the
extracted arguments are passed to the underlying native method in the
original declaration order. -/
theorem gen_vm_fn_body_slot_plan (params : List PDecl) :
    genExtractors (MethodParams.ofDecls params)
        = params.enum.map (fun ip =>
            (ip.1,
              if ip.1 = 0 then
                CursorCall.newC (if ip.2.isObject then none else some ip.2.tyName)
                  (ip.1 + 1) params.length
              else
                CursorCall.nextC (if ip.2.isObject then none else some ip.2.tyName)
                  (ip.1 + 1) (ip.1 - 1))) ∧
    genCallOrder (MethodParams.ofDecls params)
        = params.enum.map (fun ip =>
            if ip.2.isObject then CallArg.narrowed ip.1 (ip.1 + 1) ip.2.tyName
            else CallArg.plainRef ip.1) ∧
    (MethodParams.ofDecls params).arity = params.length := by
  have hq : ∀ x ∈ params.enum.filter (fun ip => ip.2.isObject), x.2.isObject = true :=
    fun x hx => by simpa using (List.mem_filter.mp hx).2
  have hnq : ∀ x ∈ params.enum.filter (fun x => !x.2.isObject), x.2.isObject = false :=
    fun x hx => by simpa using (List.mem_filter.mp hx).2
  have hnorm : (MethodParams.ofDecls params).normal_params
      = (params.enum.filter (fun x => !x.2.isObject)).map (fun ip => (ip.1, ip.2.tyName)) := by
    simp only [MethodParams.ofDecls, List.partition_eq_filter_filter]
    rfl
  have hobj : (MethodParams.ofDecls params).object_params
      = (params.enum.filter (fun ip => ip.2.isObject)).map (fun ip => (ip.1, ip.2.tyName)) := by
    simp only [MethodParams.ofDecls, List.partition_eq_filter_filter]
  have harity : (MethodParams.ofDecls params).arity = params.length := by
    have hperm0 := List.filter_append_perm (fun ip : Nat × PDecl => ip.2.isObject) params.enum
    have hlen0 := hperm0.length_eq
    simp only [List.length_append, List.enum_length] at hlen0
    simp only [MethodParams.arity, hnorm, hobj, List.length_map]
    omega
  refine ⟨?_, ?_, harity⟩
  · -- cursor computations, emitted sorted by position
    have hrec := (sortByPos_partition_recombine params (fun ip => ip.2.isObject)
      (fun ip => (ip.1, cursorFor params.length ip.2.isObject ip.2.tyName ip.1))
      (fun _ => rfl)).2
    have hleft : (MethodParams.ofDecls params).normal_params.map
          (fun it => (it.1, cursorFor (MethodParams.ofDecls params).arity false it.2 it.1))
        = (params.enum.filter (fun x => !x.2.isObject)).map
            (fun ip => (ip.1, cursorFor params.length ip.2.isObject ip.2.tyName ip.1)) := by
      rw [hnorm, harity, List.map_map]
      exact List.map_congr_left (fun x hx => by simp [Function.comp, hnq x hx])
    have hright : (MethodParams.ofDecls params).object_params.map
          (fun it => (it.1, cursorFor (MethodParams.ofDecls params).arity true it.2 it.1))
        = (params.enum.filter (fun ip => ip.2.isObject)).map
            (fun ip => (ip.1, cursorFor params.length ip.2.isObject ip.2.tyName ip.1)) := by
      rw [hobj, harity, List.map_map]
      exact List.map_congr_left (fun x hx => by simp [Function.comp, hq x hx])
    calc genExtractors (MethodParams.ofDecls params)
        = sortByPos
            ((params.enum.filter (fun x => !x.2.isObject)).map
                (fun ip => (ip.1, cursorFor params.length ip.2.isObject ip.2.tyName ip.1)) ++
              (params.enum.filter (fun ip => ip.2.isObject)).map
                (fun ip => (ip.1, cursorFor params.length ip.2.isObject ip.2.tyName ip.1))) := by
          rw [genExtractors, hleft, hright]
      _ = params.enum.map
            (fun ip => (ip.1, cursorFor params.length ip.2.isObject ip.2.tyName ip.1)) := hrec
      _ = _ := List.map_congr_left (fun ip _ => by simp [cursorFor])
  · -- native call arguments, in declaration order
    have hrec := (sortByPos_partition_recombine params (fun ip => ip.2.isObject)
      (fun ip => (ip.1, (ip.2.tyName, ip.2.isObject))) (fun _ => rfl)).1
    have hleft : (MethodParams.ofDecls params).object_params.map
          (fun it => (it.1, (it.2, true)))
        = (params.enum.filter (fun ip => ip.2.isObject)).map
            (fun ip => (ip.1, (ip.2.tyName, ip.2.isObject))) := by
      rw [hobj, List.map_map]
      exact List.map_congr_left (fun x hx => by simp [Function.comp, hq x hx])
    have hright : (MethodParams.ofDecls params).normal_params.map
          (fun it => (it.1, (it.2, false)))
        = (params.enum.filter (fun x => !x.2.isObject)).map
            (fun ip => (ip.1, (ip.2.tyName, ip.2.isObject))) := by
      rw [hnorm, List.map_map]
      exact List.map_congr_left (fun x hx => by simp [Function.comp, hnq x hx])
    calc genCallOrder (MethodParams.ofDecls params)
        = (sortByPos
            ((params.enum.filter (fun ip => ip.2.isObject)).map
                (fun ip => (ip.1, (ip.2.tyName, ip.2.isObject))) ++
              (params.enum.filter (fun x => !x.2.isObject)).map
                (fun ip => (ip.1, (ip.2.tyName, ip.2.isObject))))).map
            (fun it => if it.2.2 then CallArg.narrowed it.1 (it.1 + 1) it.2.1
              else CallArg.plainRef it.1) := by
          rw [genCallOrder, hleft, hright]
      _ = (params.enum.map (fun ip => (ip.1, (ip.2.tyName, ip.2.isObject)))).map
            (fun it => if it.2.2 then CallArg.narrowed it.1 (it.1 + 1) it.2.1
              else CallArg.plainRef it.1) := by rw [hrec]
      _ = _ := by
          rw [List.map_map]
          exact List.map_congr_left (fun ip _ => by simp [Function.comp])

/-- Counterexample to C2 as stated: in the marshaling body of a method
with two plain parameters (total arity 2), the cursor computation
emitted for position 1 is `InputSlot::next::<u32>(2, &arg0_calc)` — its
inputs are the slot index and the previous cursor only, with no
total-arity argument (`CursorCall.arityArg` is `none`), and it is
byte-identical to the position-1 cursor computation of a three-parameter
method (total arity 3).  This refutes the part of the claim saying the
cursor for each position `k > 0` is derived from position `k - 1`'s
cursor plus its own `(slot_index, total_arity)`: the total arity is not
among the derivation's inputs. -/
theorem gen_vm_fn_body_next_cursor_counterexample :
    genExtractors (MethodParams.ofDecls [⟨false, "i64"⟩, ⟨false, "u32"⟩])
        = [(0, CursorCall.newC (some "i64") 1 2), (1, CursorCall.nextC (some "u32") 2 0)] ∧
    genExtractors (MethodParams.ofDecls [⟨false, "i64"⟩, ⟨false, "u32"⟩, ⟨false, "i8"⟩])
        = [(0, CursorCall.newC (some "i64") 1 3), (1, CursorCall.nextC (some "u32") 2 0),
            (2, CursorCall.nextC (some "i8") 3 1)] ∧
    CursorCall.arityArg (CursorCall.nextC (some "u32") 2 0) = none := by
  refine ⟨by decide, by decide, rfl⟩

/-- A group of extractions whose prefix succeeds fails at the first
position whose extraction yields no value. -/
theorem extractAll_error_split {V : Type} (ext : Nat → Option V) (i : Nat) (ty : String)
    (rest : List (Nat × String)) :
    ∀ pre : List (Nat × String), (∀ jt ∈ pre, (ext jt.1).isSome) → ext i = none →
      extractAll ext (pre ++ (i, ty) :: rest) = .error (i, ty) := by
  intro pre
  induction pre with
  | nil =>
    intro _ hfail
    simp [extractAll, hfail]
  | cons jt pres ih =>
    obtain ⟨j, tyj⟩ := jt
    intro hpre hfail
    have hj : (ext j).isSome := hpre (j, tyj) (List.mem_cons_self _ pres)
    obtain ⟨v, hv⟩ := Option.isSome_iff_exists.mp hj
    have htail := ih (fun x hx => hpre x (List.mem_cons_of_mem _ hx)) hfail
    simp [extractAll, hv, htail]

/-- C3. When slot extraction for a plain (non-object) parameter yields
no value — `i` being the first plain position that fails — the
generated non-constructor body writes the message naming the expected
type and the slot index to slot 0 and signals fiber-abort, returning
without invoking the underlying native method; the constructor body
returns the same message as an error value instead. -/
theorem plain_extraction_failure_aborts {V : Type} (m : MethodParams)
    (ext : Nat → Option V) (narrow : Nat → V → Option V)
    (pre rest : List (Nat × String)) (i : Nat) (ty : String)
    (hsplit : m.normal_params = pre ++ (i, ty) :: rest)
    (hpre : ∀ jt ∈ pre, (ext jt.1).isSome)
    (hfail : ext i = none) :
    runBody false m ext narrow = .abortFiber (failMsg ty (i + 1)) ∧
    runBody true m ext narrow = .ctorErr (failMsg ty (i + 1)) ∧
    ∀ args : List V, runBody false m ext narrow ≠ .completed args := by
  have herr : extractAll ext m.normal_params = .error (i, ty) := by
    rw [hsplit]
    exact extractAll_error_split ext i ty rest pre hpre hfail
  refine ⟨by simp [runBody, herr], by simp [runBody, herr], ?_⟩
  intro args
  simp [runBody, herr]

/-- Witness for C3: a one-parameter method whose single plain `f64`
parameter fails extraction aborts the fiber (or errors the constructor)
with the message naming `f64` and slot 1. -/
theorem plain_extraction_failure_aborts_witness :
    runBody false (MethodParams.ofDecls [⟨false, "f64"⟩]) (fun _ => (none : Option Nat))
        (fun _ _ => none) = .abortFiber (failMsg "f64" 1) ∧
    runBody true (MethodParams.ofDecls [⟨false, "f64"⟩]) (fun _ => (none : Option Nat))
        (fun _ _ => none) = .ctorErr (failMsg "f64" 1) := by
  have h := plain_extraction_failure_aborts (V := Nat) (MethodParams.ofDecls [⟨false, "f64"⟩])
    (fun _ => none) (fun _ _ => none) [] [] 0 "f64" (by decide) (by simp) rfl
  exact ⟨h.1, h.2.1⟩

/-- C4, evaluated at a failing input.  A method with one object-typed
parameter whose final narrowing conversion fails panics with the
message naming slot 1 and the declared type `Bar` — it does not signal
fiber-abort — but the FFI wrapper emitted by `gen_native_vm_fn` (either
receiver kind) does not place the call under `catch_unwind` /
`ruwren::handle_panic`, so nothing in the generated code contains the
unwind at the native boundary: the claim's containment is absent from
the code. -/
theorem object_narrowing_failure_panics_uncontained :
    runBody false (MethodParams.ofDecls [⟨true, "Bar"⟩]) (fun _ => some (0 : Nat))
        (fun _ _ => none) = .panicked (panicMsg 1 "Bar") ∧
    (genNativeVmFnShape true).callsUnderCatchUnwind = false ∧
    (genNativeVmFnShape false).callsUnderCatchUnwind = false := by
  refine ⟨by decide, rfl, rfl⟩

/-! ## Validation-layer facts -/

theorem length_filter_enumFrom {α : Type} (p : α → Bool) :
    ∀ (n : Nat) (l : List α),
      ((List.enumFrom n l).filter (fun ip => p ip.2)).length = (l.filter p).length := by
  intro n l
  induction l generalizing n with
  | nil => rfl
  | cons x xs ih =>
    simp only [List.enumFrom, List.filter_cons]
    by_cases h : p x
    · simp [h, ih (n + 1)]
    · simp [h, ih (n + 1)]

theorem length_filter_enum {α : Type} (p : α → Bool) (l : List α) :
    ((l.enum).filter (fun ip => p ip.2)).length = (l.filter p).length :=
  length_filter_enumFrom p 0 l

theorem length_filter_enum_obj (obj : List String) (l : List PatTy) :
    ((l.enum).filter (fun ip => isObjectParam obj ip.2)).length
      = (l.filter (fun pt => isObjectParam obj pt)).length :=
  length_filter_enum (fun pt => isObjectParam obj pt) l

theorem length_filter_enum_nobj (obj : List String) (l : List PatTy) :
    ((l.enum).filter (fun ip => !(isObjectParam obj ip.2))).length
      = (l.filter (fun pt => !(isObjectParam obj pt))).length :=
  length_filter_enum (fun pt => !(isObjectParam obj pt)) l

/-- Inversion of a successful `tryFromFn`: the receiver type is the one
found by `receiverSplit`, and the object/normal parameter lists are the
enumerate-and-partition of the typed non-receiver arguments. -/
theorem tryFromFn_ok_params (src : String) (fi : WrenImplFn) (vf : WrenImplValidFn)
    (rty : RType) (args : List RFnArg) (hs : Bool)
    (hr : receiverSplit src fi = .ok (rty, args, hs))
    (h : tryFromFn src fi = .ok vf) :
    vf.receiver_ty = rty ∧
    vf.object_params
        = (typedArgs args).enum.filter (fun ip => isObjectParam fi.attrs.object ip.2) ∧
    vf.normal_params
        = (typedArgs args).enum.filter (fun ip => !(isObjectParam fi.attrs.object ip.2)) := by
  simp only [tryFromFn, hr, List.partition_eq_filter_filter] at h
  split at h
  · split at h
    · injection h with h
      subst h
      exact ⟨rfl, rfl, rfl⟩
    · injection h with h
      subst h
      exact ⟨rfl, rfl, rfl⟩
  · cases h

/-- A validation run under legal role counts: with at most one allocator
and at most one constructor declared, `validate` reports the whole
aggregated error list when it is non-empty and otherwise produces the
validated impl. -/
theorem validate_run (self : WrenObjectImpl)
    (hA : (self.items.filter (fun fi => fi.attrs.allocator)).length ≤ 1)
    (hC : (self.items.filter (fun fi => fi.attrs.constructor)).length ≤ 1) :
    self.validate =
      if (combinedErrors self).isEmpty then
        .ok { ty := self.ty
              allocator := (self.items.filter (fun fi => fi.attrs.allocator)).head?.map
                (fun a => (validateAllocator self.ty a).2)
              constructor :=
                match (self.items.filter (fun fi => fi.attrs.constructor)).head? with
                | some c => (validateConstructor self.ty c).2
                | none => none
              others := resolvedMethods self }
      else .error (combinedErrors self) := by
  simp only [WrenObjectImpl.validate]
  rw [if_pos hA, if_pos hC]

/-- C7. For every validated method declaration, the computed arity is
the count of plain (non-object) parameters plus the count of
object-typed parameters among the typed non-receiver arguments — hence
the total count of non-receiver parameters — and any other declaration
whose typed non-receiver arguments are a permutation of these (plain and
object parameters in any order) validates to the same arity. -/
theorem wrenImplValidFn_arity_counts (src : String) (fi fi' : WrenImplFn)
    (vf vf' : WrenImplValidFn) (rty rty' : RType) (args args' : List RFnArg) (hs hs' : Bool)
    (hr : receiverSplit src fi = .ok (rty, args, hs))
    (h : tryFromFn src fi = .ok vf)
    (hr' : receiverSplit src fi' = .ok (rty', args', hs'))
    (h' : tryFromFn src fi' = .ok vf')
    (hperm : List.Perm (typedArgs args) (typedArgs args')) :
    vf.arity
        = ((typedArgs args).filter (fun pt => !(isObjectParam fi.attrs.object pt))).length
          + ((typedArgs args).filter (fun pt => isObjectParam fi.attrs.object pt)).length ∧
    vf.arity = (typedArgs args).length ∧
    vf'.arity = vf.arity := by
  obtain ⟨-, hop, hnp⟩ := tryFromFn_ok_params src fi vf rty args hs hr h
  obtain ⟨-, hop', hnp'⟩ := tryFromFn_ok_params src fi' vf' rty' args' hs' hr' h'
  have hsum : ∀ (l : List PatTy) (p : PatTy → Bool),
      (l.filter (fun pt => !(p pt))).length + (l.filter p).length = l.length := by
    intro l p
    have := (List.filter_append_perm p l).length_eq
    simp only [List.length_append] at this
    omega
  have hcount : vf.arity
      = ((typedArgs args).filter (fun pt => !(isObjectParam fi.attrs.object pt))).length
        + ((typedArgs args).filter (fun pt => isObjectParam fi.attrs.object pt)).length := by
    rw [WrenImplValidFn.arity, hop, hnp, length_filter_enum_nobj, length_filter_enum_obj]
  have hlen : vf.arity = (typedArgs args).length := by
    rw [hcount, hsum]
  have hlen' : vf'.arity = (typedArgs args').length := by
    rw [WrenImplValidFn.arity, hop', hnp', length_filter_enum_nobj, length_filter_enum_obj,
      hsum]
  refine ⟨hcount, hlen, ?_⟩
  rw [hlen', hlen, hperm.length_eq]

/-- Witness for C7: the method `fn m2(&self, a: f64, #[wren_impl(object)] b: Foo)`
(object parameter `b`) has arity 2 = 1 plain + 1 object, and the same
declaration with parameters in the opposite order (`b` then `a`)
validates to the same arity. -/
theorem wrenImplValidFn_arity_counts_witness :
    (2 : Nat)
        = ((typedArgs [RFnArg.receiver,
              RFnArg.typed (RPat.ident "a") (RType.path "f64"),
              RFnArg.typed (RPat.ident "b") (RType.path "Foo")]).filter
            (fun pt => !(isObjectParam ["b"] pt))).length
          + ((typedArgs [RFnArg.receiver,
              RFnArg.typed (RPat.ident "a") (RType.path "f64"),
              RFnArg.typed (RPat.ident "b") (RType.path "Foo")]).filter
            (fun pt => isObjectParam ["b"] pt)).length := by
  have h := wrenImplValidFn_arity_counts "Foo"
    ⟨⟨"m2", [.receiver, .typed (.ident "a") (.path "f64"),
        .typed (.ident "b") (.path "Foo")], .default⟩,
      ⟨false, false, false, false, false, false, ["b"]⟩⟩
    ⟨⟨"m2r", [.receiver, .typed (.ident "b") (.path "Foo"),
        .typed (.ident "a") (.path "f64")], .default⟩,
      ⟨false, false, false, false, false, false, ["b"]⟩⟩
    { receiver_ty := .path "FooClass", is_static := true, is_setter := false,
      is_getter := false, source_name := none,
      normal_params := [(0, ⟨.ident "a", .path "f64"⟩)],
      object_params := [(1, ⟨.ident "b", .path "Foo"⟩)],
      sig := ⟨"m2", [.receiver, .typed (.ident "a") (.path "f64"),
        .typed (.ident "b") (.path "Foo")], .default⟩ }
    { receiver_ty := .path "FooClass", is_static := true, is_setter := false,
      is_getter := false, source_name := none,
      normal_params := [(1, ⟨.ident "a", .path "f64"⟩)],
      object_params := [(0, ⟨.ident "b", .path "Foo"⟩)],
      sig := ⟨"m2r", [.receiver, .typed (.ident "b") (.path "Foo"),
        .typed (.ident "a") (.path "f64")], .default⟩ }
    (.path "FooClass") (.path "FooClass")
    [.receiver, .typed (.ident "a") (.path "f64"), .typed (.ident "b") (.path "Foo")]
    [.receiver, .typed (.ident "b") (.path "Foo"), .typed (.ident "a") (.path "f64")]
    true true rfl rfl rfl rfl (by decide)
  exact h.1

/-- C10. A declared non-allocator method without a `self` receiver
consumes its first typed parameter as the receiver type, excluding it
from the object/normal parameter lists and hence from the arity, which
counts the remaining typed parameters only; a receiver-less method with
an empty parameter list is rejected with the diagnostic that the method
must have a receiver. -/
theorem receiverless_first_param (src : String) (fi : WrenImplFn) :
    (fi.sig.inputs = [] →
      tryFromFn src fi = .error ["method " ++ fi.sig.ident ++ " must have a receiver"]) ∧
    (∀ p t rest, fi.sig.inputs = .typed p t :: rest →
      ∀ vf, tryFromFn src fi = .ok vf →
        vf.receiver_ty = t ∧
        vf.object_params
            = (typedArgs rest).enum.filter (fun ip => isObjectParam fi.attrs.object ip.2) ∧
        vf.normal_params
            = (typedArgs rest).enum.filter (fun ip => !(isObjectParam fi.attrs.object ip.2)) ∧
        vf.arity = (typedArgs rest).length) := by
  constructor
  · intro hemp
    have hrs : receiverSplit src fi
        = .error ["method " ++ fi.sig.ident ++ " must have a receiver"] := by
      simp [receiverSplit, hasSelfReceiver, hemp]
    simp [tryFromFn, hrs]
  · intro p t rest hcons vf h
    have hrs : receiverSplit src fi = .ok (t, rest, false) := by
      simp [receiverSplit, hasSelfReceiver, hcons]
    obtain ⟨h1, h2, h3⟩ := tryFromFn_ok_params src fi vf t rest false hrs h
    refine ⟨h1, h2, h3, ?_⟩
    rw [WrenImplValidFn.arity, h2, h3, length_filter_enum_nobj, length_filter_enum_obj]
    have := (List.filter_append_perm
      (fun pt => isObjectParam fi.attrs.object pt) (typedArgs rest)).length_eq
    simp only [List.length_append] at this
    omega

/-- Witness for C10: `fn m()` with no inputs at all is rejected; in
`fn g(me: QWrapper, x: i32)` the first typed parameter is consumed as
the receiver, leaving arity 1. -/
theorem receiverless_first_param_witness :
    tryFromFn "Q" ⟨⟨"m", [], .default⟩, ⟨false, false, false, false, false, false, []⟩⟩
        = .error ["method m must have a receiver"] ∧
    ({ receiver_ty := .path "QWrapper", is_static := true, is_setter := false,
       is_getter := false, source_name := none,
       normal_params := [(0, ⟨.ident "x", .path "i32"⟩)], object_params := [],
       sig := ⟨"g", [.typed (.ident "me") (.path "QWrapper"),
         .typed (.ident "x") (.path "i32")], .default⟩ } : WrenImplValidFn).receiver_ty
      = RType.path "QWrapper" := by
  constructor
  · exact (receiverless_first_param "Q"
      ⟨⟨"m", [], .default⟩, ⟨false, false, false, false, false, false, []⟩⟩).1 rfl
  · exact ((receiverless_first_param "Q"
      ⟨⟨"g", [.typed (.ident "me") (.path "QWrapper"),
          .typed (.ident "x") (.path "i32")], .default⟩,
        ⟨false, false, false, false, false, false, []⟩⟩).2
      (.ident "me") (.path "QWrapper") [.typed (.ident "x") (.path "i32")] rfl
      _ rfl).1

/-- Counterexample to C5 as stated: a batch declaring two allocators and
also an invalid getter (a getter with one non-receiver parameter) is
rejected with only the duplicate-allocator diagnostic: validation
returns early at the role-count check (the `return Err(vec![..])` of
lib.rs lines 1105-1112) and the getter's failure — shown separately to
be a real validation failure of that item — is not reported alongside
it.  Validation therefore does stop at the first failure for duplicate
allocator (and constructor) roles. -/
theorem validate_duplicate_allocator_shortcircuits :
    WrenObjectImpl.validate
        ⟨"Foo",
          [⟨⟨"alloc1", [], .default⟩, ⟨true, false, false, false, false, false, []⟩⟩,
            ⟨⟨"alloc2", [], .default⟩, ⟨true, false, false, false, false, false, []⟩⟩,
            ⟨⟨"g", [.receiver, .typed (.ident "x") (.path "i32")], .default⟩,
              ⟨false, false, false, true, false, false, []⟩⟩]⟩
        = .error ["Expected 0 or 1 allocators, found 2"] ∧
    tryFromFn "Foo"
        ⟨⟨"g", [.receiver, .typed (.ident "x") (.path "i32")], .default⟩,
          ⟨false, false, false, true, false, false, []⟩⟩
        = .error ["getter g must take no non-receiver arguments (takes 2 arguments)"] :=
  ⟨rfl, rfl⟩

/-- C5 (amended). For a declaration batch with at most one allocator
and at most one constructor role, all validation failures — getter and
setter shape errors, unknown object-parameter names, and bad
allocator/constructor shapes — are collected and reported together as
one list; a batch declaring duplicate allocator or constructor roles is
instead rejected immediately with only the duplicate-role diagnostic. -/
theorem validate_reports_all_failures (self : WrenObjectImpl)
    (hA : (self.items.filter (fun fi => fi.attrs.allocator)).length ≤ 1)
    (hC : (self.items.filter (fun fi => fi.attrs.constructor)).length ≤ 1)
    (hNE : combinedErrors self ≠ []) :
    self.validate = .error (combinedErrors self) ∧
    (∀ e, (e ∈ allocErrorsOf self ∨ e ∈ ctorErrorsOf self
        ∨ e ∈ otherErrors self.ty self.items) → e ∈ combinedErrors self) := by
  have hrun := validate_run self hA hC
  have hie : (combinedErrors self).isEmpty = false := by
    cases hcc : combinedErrors self with
    | nil => exact absurd hcc hNE
    | cons a l => rfl
  rw [hie] at hrun
  refine ⟨by simpa using hrun, ?_⟩
  intro e he
  rcases he with h | h | h <;> simp [combinedErrors, h]

/-- Witness for C5: a batch with an invalid getter and an invalid
setter (and no allocator or constructor) reports both diagnostics
together. -/
theorem validate_reports_all_failures_witness :
    WrenObjectImpl.validate
        ⟨"Foo",
          [⟨⟨"g", [.receiver, .typed (.ident "x") (.path "i32")], .default⟩,
              ⟨false, false, false, true, false, false, []⟩⟩,
            ⟨⟨"s", [.receiver], .default⟩,
              ⟨false, false, false, false, true, false, []⟩⟩]⟩
      = .error ["getter g must take no non-receiver arguments (takes 2 arguments)",
          "setter s must take 1 non-receiver argument (takes 1 arguments), and return () (returns ())"] := by
  have h := (validate_reports_all_failures
    ⟨"Foo",
      [⟨⟨"g", [.receiver, .typed (.ident "x") (.path "i32")], .default⟩,
          ⟨false, false, false, true, false, false, []⟩⟩,
        ⟨⟨"s", [.receiver], .default⟩,
          ⟨false, false, false, false, true, false, []⟩⟩]⟩
    (by decide) (by decide) (by decide)).1
  rw [show combinedErrors
      ⟨"Foo",
        [⟨⟨"g", [.receiver, .typed (.ident "x") (.path "i32")], .default⟩,
            ⟨false, false, false, true, false, false, []⟩⟩,
          ⟨⟨"s", [.receiver], .default⟩,
            ⟨false, false, false, false, true, false, []⟩⟩]⟩
      = ["getter g must take no non-receiver arguments (takes 2 arguments)",
          "setter s must take 1 non-receiver argument (takes 1 arguments), and return () (returns ())"]
    from rfl] at h
  exact h

/-- C6. For a well-formed declaration batch with zero allocator-flagged
and zero constructor-flagged items, validation and registration
succeed, the registered allocate/construct entry points are the
synthesized defaults, and those defaults behave as the logical type's
default value: `___default_alloc` returns the class record converted
from the default logical value, and `___default_constructor` returns
`Ok` of the instance record converted from it. -/
theorem defaulted_registration (self : WrenObjectImpl)
    (hNoA : ∀ fi ∈ self.items, fi.attrs.allocator = false)
    (hNoC : ∀ fi ∈ self.items, fi.attrs.constructor = false)
    (hOk : ∀ fi ∈ othersFilter self.items, (tryFromFn self.ty fi).isOk = true) :
    wrenImpl self
        = .ok { allocatorCall := .defaulted
                constructorCall := .defaulted
                methods := (resolvedMethods self).map methodPointerOf } ∧
    (∀ (V : Type) (d : List (Bool × V)),
      defaultAllocatorResult d = classRecord d ∧
      defaultConstructorResult d = Except.ok (instanceRecord d)) := by
  have hfA : self.items.filter (fun fi => fi.attrs.allocator) = [] :=
    List.filter_eq_nil_iff.mpr (fun a ha => by simp [hNoA a ha])
  have hfC : self.items.filter (fun fi => fi.attrs.constructor) = [] :=
    List.filter_eq_nil_iff.mpr (fun a ha => by simp [hNoC a ha])
  have hOE : otherErrors self.ty self.items = [] := by
    have key : ∀ L : List WrenImplFn, (∀ fi ∈ L, (tryFromFn self.ty fi).isOk = true) →
        (L.flatMap (fun fi =>
          match tryFromFn self.ty fi with
          | .error errs => errs
          | .ok _ => [])) = [] := by
      intro L hL
      induction L with
      | nil => rfl
      | cons a l ih =>
        have ha := hL a (List.mem_cons_self a l)
        have htail := ih (fun x hx => hL x (List.mem_cons_of_mem a hx))
        cases he : tryFromFn self.ty a with
        | ok v => simp [he, htail]
        | error e =>
          rw [he] at ha
          rw [show (Except.error e : Except (List String) WrenImplValidFn).isOk = false
            from rfl] at ha
          cases ha
    exact key (othersFilter self.items) hOk
  have hCE : combinedErrors self = [] := by
    simp only [combinedErrors, allocErrorsOf, ctorErrorsOf, hfA, hfC, hOE]
    rfl
  have hval : self.validate
      = .ok { ty := self.ty, allocator := none, constructor := none,
              others := resolvedMethods self } := by
    have hrun := validate_run self (by simp [hfA]) (by simp [hfC])
    rw [hCE] at hrun
    simpa [hfA, hfC] using hrun
  refine ⟨?_, fun V d => ⟨rfl, rfl⟩⟩
  simp [wrenImpl, hval]

/-- Witness for C6: a batch with one plain method and no
allocator/constructor roles registers with the defaulted allocator and
constructor, whose results are the class and instance records of the
default logical value. -/
theorem defaulted_registration_witness :
    wrenImpl ⟨"Pt", [⟨⟨"m", [.receiver], .default⟩,
        ⟨false, false, false, false, false, false, []⟩⟩]⟩
      = .ok { allocatorCall := .defaulted
              constructorCall := .defaulted
              methods := (resolvedMethods ⟨"Pt", [⟨⟨"m", [.receiver], .default⟩,
                ⟨false, false, false, false, false, false, []⟩⟩]⟩).map methodPointerOf } ∧
    defaultAllocatorResult [(true, (3 : Nat)), (false, 4)]
      = classRecord [(true, 3), (false, 4)] ∧
    defaultConstructorResult [(true, (3 : Nat)), (false, 4)]
      = Except.ok (instanceRecord [(true, 3), (false, 4)]) := by
  have h := defaulted_registration
    ⟨"Pt", [⟨⟨"m", [.receiver], .default⟩, ⟨false, false, false, false, false, false, []⟩⟩]⟩
    (by decide) (by decide) (by decide)
  exact ⟨h.1, (h.2 Nat [(true, 3), (false, 4)]).1, (h.2 Nat [(true, 3), (false, 4)]).2⟩

/-- Counterexample to C9 as stated: two declaration batches whose only
method agrees on all five claimed flags (`is_allocator`,
`is_constructor`, `is_instance`, `is_getter`, `is_setter`), on the
object-parameter name list, and on the entire signature — differing
only in the additional `ignore` flag (lib.rs line 504) — register
different method tables: the ignored method is absent.  A per-method
configuration knob other than the five flags and the object list
therefore exists and affects which methods are resolved and
registered. -/
theorem ignore_flag_affects_registration :
    wrenImpl ⟨"Foo", [⟨⟨"m", [.receiver], .default⟩,
        { allocator := false, constructor := false, instanceFlag := false,
          getter := false, setter := false, ignore := false, object := [] }⟩]⟩
      = .ok { allocatorCall := .defaulted
              constructorCall := .defaulted
              methods := [{ is_static := true
                            signature := .function "m" 0
                            pointer := "native_vm_m" }] } ∧
    wrenImpl ⟨"Foo", [⟨⟨"m", [.receiver], .default⟩,
        { allocator := false, constructor := false, instanceFlag := false,
          getter := false, setter := false, ignore := true, object := [] }⟩]⟩
      = .ok { allocatorCall := .defaulted
              constructorCall := .defaulted
              methods := [] } :=
  ⟨rfl, rfl⟩

/-- C9 (amended). The per-method configuration surface accepted by the
core consists of the flags `is_allocator`, `is_constructor`,
`is_instance`, `is_getter`, `is_setter`, the list of object-parameter
names, and additionally an `ignore` flag; an ignored item that is not
allocator- or constructor-flagged is skipped entirely — validating and
registering a batch with it gives exactly the result of the batch
without it. -/
theorem ignored_method_invisible (fi : WrenImplFn) (ty : String) (items : List WrenImplFn)
    (hIg : fi.attrs.ignore = true) (hA : fi.attrs.allocator = false)
    (hC : fi.attrs.constructor = false) :
    WrenObjectImpl.validate ⟨ty, fi :: items⟩ = WrenObjectImpl.validate ⟨ty, items⟩ ∧
    wrenImpl ⟨ty, fi :: items⟩ = wrenImpl ⟨ty, items⟩ := by
  have hOth : othersFilter (fi :: items) = othersFilter items := by
    simp [othersFilter, List.filter_cons, hIg]
  have hfA : (fi :: items).filter (fun x => x.attrs.allocator)
      = items.filter (fun x => x.attrs.allocator) := by
    simp [List.filter_cons, hA]
  have hfC : (fi :: items).filter (fun x => x.attrs.constructor)
      = items.filter (fun x => x.attrs.constructor) := by
    simp [List.filter_cons, hC]
  have hOE : otherErrors ty (fi :: items) = otherErrors ty items := by
    simp only [otherErrors, hOth]
  have hRM : resolvedMethods ⟨ty, fi :: items⟩ = resolvedMethods ⟨ty, items⟩ := by
    simp only [resolvedMethods, hOth]
  have hAE : allocErrorsOf ⟨ty, fi :: items⟩ = allocErrorsOf ⟨ty, items⟩ := by
    simp only [allocErrorsOf, hfA]
  have hCtE : ctorErrorsOf ⟨ty, fi :: items⟩ = ctorErrorsOf ⟨ty, items⟩ := by
    simp only [ctorErrorsOf, hfC]
  have hCmb : combinedErrors ⟨ty, fi :: items⟩ = combinedErrors ⟨ty, items⟩ := by
    simp only [combinedErrors, hAE, hCtE, hOE]
  have hval : WrenObjectImpl.validate ⟨ty, fi :: items⟩
      = WrenObjectImpl.validate ⟨ty, items⟩ := by
    simp only [WrenObjectImpl.validate, hfA, hfC, hCmb, hRM]
  exact ⟨hval, by simp only [wrenImpl, hval]⟩

/-- Witness for C9 (amended) at a concrete ignored method. -/
theorem ignored_method_invisible_witness :
    WrenObjectImpl.validate ⟨"Q", [⟨⟨"z", [.receiver], .default⟩,
        ⟨false, false, false, false, false, true, []⟩⟩]⟩
      = WrenObjectImpl.validate ⟨"Q", []⟩ ∧
    wrenImpl ⟨"Q", [⟨⟨"z", [.receiver], .default⟩,
        ⟨false, false, false, false, false, true, []⟩⟩]⟩
      = wrenImpl ⟨"Q", []⟩ :=
  ignored_method_invisible
    ⟨⟨"z", [.receiver], .default⟩, ⟨false, false, false, false, false, true, []⟩⟩
    "Q" [] rfl rfl rfl
